import Mathlib

/-!
Verification development for the Drishyamitra face-recognition core
(`backend/services/face_recognition.py`, `backend/services/face_service.py`,
`backend/services/tasks.py`, `backend/routes/face_routes.py`).

The Python code is shallowly embedded: floats become exact reals (ℝ) where
square roots occur and rationals (ℚ) for timestamps, instance dictionaries
become functions `Nat → Option _`, the SQLAlchemy session becomes an explicit
record of committed and pending rows, and exceptions become `Except` /
explicit failure flags.
-/

namespace Drishyamitra

/-- An embedding vector (`list[float]` of length 512 in the pipeline;
the model keeps the length unconstrained, as the Python code does). -/
abbrev Emb := List ℝ

/-- A `Person` row (`models/person.py`): id, display name, owning user,
auto-created flag. -/
structure Person where
  id : Nat
  name : String
  user_id : Nat
  is_auto_created : Bool
deriving Repr, DecidableEq

/-- `FaceRecognitionService.COSINE_THRESHOLD = 0.40`. -/
noncomputable def COSINE_THRESHOLD : ℝ := 0.40

/-- `FaceRecognitionService.EUCLIDEAN_THRESHOLD = 20.0` (reporting only). -/
noncomputable def EUCLIDEAN_THRESHOLD : ℝ := 20.0

/-- `FaceRecognitionService.CACHE_TTL = 300` seconds. -/
def CACHE_TTL : ℚ := 300

/-- `FaceRecognitionService.MODEL_VERSION`. -/
def MODEL_VERSION : String := "Facenet512-RetinaFace-MTCNN-v1"

/-- `np.dot` on two equal-length vectors: sum of pointwise products. -/
noncomputable def dotList (a b : Emb) : ℝ :=
  (List.zipWith (fun x y => x * y) a b).sum

/-- `np.linalg.norm`: square root of the sum of squares. -/
noncomputable def norm (a : Emb) : ℝ := Real.sqrt (dotList a a)

/-- `FaceRecognitionService.cosine_similarity`: returns `0.0` when either
norm is zero, else `dot(a,b) / (‖a‖·‖b‖)`. -/
noncomputable def cosine_similarity (a b : Emb) : ℝ :=
  if norm a = 0 ∨ norm b = 0 then 0
  else dotList a b / (norm a * norm b)

/-- `FaceRecognitionService.cosine_distance = 1.0 - cosine_similarity`. -/
noncomputable def cosine_distance (a b : Emb) : ℝ :=
  1 - cosine_similarity a b

/-- `FaceRecognitionService.euclidean_distance`: L2 norm of the difference. -/
noncomputable def euclidean_distance (a b : Emb) : ℝ :=
  norm (List.zipWith (fun x y => x - y) a b)

/-- One `{"person": ..., "embedding": ...}` entry of a user's cached
embedding list. -/
structure CandEntry where
  person : Person
  embedding : Emb

/-- The score dict returned by `match_face`.  `best_cos_dist` and
`best_euclid` start at Python's `float("inf")`, modelled as `⊤ : WithTop ℝ`;
`best_sim` starts at `-1.0`. -/
structure Score where
  cosineDistance : WithTop ℝ
  euclidean : WithTop ℝ
  similarity : ℝ

/-- The loop body of `match_face`: a candidate becomes the new best only if
its cosine distance is below `COSINE_THRESHOLD` and below the running best. -/
noncomputable def matchStep (target : Emb) (acc : Option Person × Score)
    (entry : CandEntry) : Option Person × Score :=
  let cos_d := cosine_distance target entry.embedding
  let euclid := euclidean_distance target entry.embedding
  let sim := 1 - cos_d
  if cos_d < COSINE_THRESHOLD ∧ (cos_d : WithTop ℝ) < acc.2.cosineDistance then
    (some entry.person, ⟨(cos_d : WithTop ℝ), (euclid : WithTop ℝ), sim⟩)
  else acc

/-- `FaceRecognitionService.match_face`, over an explicit candidate list
(the list `_get_user_embeddings` returns): linear scan starting from
`(None, inf, inf, -1.0)`. -/
noncomputable def match_face (target : Emb) (user_faces : List CandEntry) :
    Option Person × Score :=
  user_faces.foldl (matchStep target) (none, ⟨⊤, ⊤, -1⟩)

/-! ### Evaluation helpers for concrete vectors -/

theorem dotList_pair (x₁ x₂ y₁ y₂ : ℝ) :
    dotList [x₁, x₂] [y₁, y₂] = x₁ * y₁ + x₂ * y₂ := by
  simp [dotList]

theorem norm_pair_one (x y : ℝ) (h : x * x + y * y = 1) : norm [x, y] = 1 := by
  rw [norm, dotList_pair, h, Real.sqrt_one]

theorem cosine_distance_unit_pair (x y a b : ℝ)
    (hx : x * x + y * y = 1) (ha : a * a + b * b = 1) :
    cosine_distance [x, y] [a, b] = 1 - (x * a + y * b) := by
  have h₁ : norm [x, y] = 1 := norm_pair_one x y hx
  have h₂ : norm [a, b] = 1 := norm_pair_one a b ha
  rw [cosine_distance, cosine_similarity, if_neg, dotList_pair, h₁, h₂]
  · norm_num
  · rw [h₁, h₂]; norm_num

theorem matchStep_eq (t : Emb) (acc : Option Person × Score) (e : CandEntry) :
    matchStep t acc e =
      if cosine_distance t e.embedding < COSINE_THRESHOLD ∧
          ((cosine_distance t e.embedding : WithTop ℝ) < acc.2.cosineDistance) then
        (some e.person,
          ⟨(cosine_distance t e.embedding : WithTop ℝ),
           (euclidean_distance t e.embedding : WithTop ℝ),
           1 - cosine_distance t e.embedding⟩)
      else acc := rfl

/-- Any person produced by the scan either was already in the accumulator or
is a candidate whose cosine distance beat the threshold. -/
theorem match_fold_person (t : Emb) (cs : List CandEntry)
    (acc : Option Person × Score) (p : Person)
    (h : (cs.foldl (matchStep t) acc).1 = some p) :
    acc.1 = some p ∨
      ∃ e ∈ cs, e.person = p ∧
        cosine_distance t e.embedding < COSINE_THRESHOLD := by
  induction cs generalizing acc with
  | nil => exact Or.inl h
  | cons e cs ih =>
    rw [List.foldl_cons] at h
    rcases ih (matchStep t acc e) h with h' | ⟨e', he', hp, hd⟩
    · rw [matchStep_eq] at h'
      by_cases hc : cosine_distance t e.embedding < COSINE_THRESHOLD ∧
          ((cosine_distance t e.embedding : WithTop ℝ) < acc.2.cosineDistance)
      · rw [if_pos hc] at h'
        refine Or.inr ⟨e, List.mem_cons_self e cs, ?_, hc.1⟩
        exact Option.some.inj h'
      · rw [if_neg hc] at h'
        exact Or.inl h'
    · exact Or.inr ⟨e', List.mem_cons_of_mem e he', hp, hd⟩

/-- If no candidate's distance clears the threshold, the scan leaves the
accumulator untouched. -/
theorem match_fold_of_all_rejected (t : Emb) (cs : List CandEntry)
    (acc : Option Person × Score)
    (h : ∀ e ∈ cs, ¬ cosine_distance t e.embedding < COSINE_THRESHOLD) :
    cs.foldl (matchStep t) acc = acc := by
  induction cs generalizing acc with
  | nil => rfl
  | cons e cs ih =>
    rw [List.foldl_cons, matchStep_eq, if_neg, ih]
    · intro e' he'
      exact h e' (List.mem_cons_of_mem e he')
    · intro hc
      exact h e (List.mem_cons_self e cs) hc.1

/-- Full characterisation of `match_face`: either nothing was accepted (and
the initial `(None, inf, inf, -1.0)` record survives, with every candidate at
or above the threshold), or the result is the first candidate attaining the
minimum distance among the accepted ones. -/
theorem match_face_spec (t : Emb) (cs : List CandEntry) :
    (match_face t cs = (none, ⟨⊤, ⊤, -1⟩) ∧
      ∀ e ∈ cs, ¬ cosine_distance t e.embedding < COSINE_THRESHOLD)
    ∨ (∃ i, ∃ hi : i < cs.length,
        (match_face t cs).1 = some (cs.get ⟨i, hi⟩).person ∧
        (match_face t cs).2.cosineDistance =
          (cosine_distance t (cs.get ⟨i, hi⟩).embedding : WithTop ℝ) ∧
        cosine_distance t (cs.get ⟨i, hi⟩).embedding < COSINE_THRESHOLD ∧
        (∀ j, ∀ hj : j < cs.length,
          cosine_distance t (cs.get ⟨j, hj⟩).embedding < COSINE_THRESHOLD →
          cosine_distance t (cs.get ⟨i, hi⟩).embedding ≤
            cosine_distance t (cs.get ⟨j, hj⟩).embedding) ∧
        (∀ j, ∀ hj : j < cs.length, j < i →
          cosine_distance t (cs.get ⟨i, hi⟩).embedding <
            cosine_distance t (cs.get ⟨j, hj⟩).embedding)) := by
  induction cs using List.reverseRecOn with
  | nil =>
    left
    exact ⟨rfl, by intro e he; cases he⟩
  | append_singleton l e ih =>
    have heq : match_face t (l ++ [e]) = matchStep t (match_face t l) e := by
      rw [match_face, match_face, List.foldl_append, List.foldl_cons,
        List.foldl_nil]
    have hel : (l ++ [e]).get ⟨l.length, by simp⟩ = e := by
      simp [List.get_eq_getElem]
    have hll : ∀ j (hj : j < l.length),
        (l ++ [e]).get ⟨j, by simp; omega⟩ = l.get ⟨j, hj⟩ := by
      intro j hj
      simp [List.get_eq_getElem, List.getElem_append_left, hj]
    rcases ih with ⟨h1, h3⟩ | ⟨i, hi, h1, h2, h3, h4, h5⟩
    · by_cases hd : cosine_distance t e.embedding < COSINE_THRESHOLD
      · right
        refine ⟨l.length, by simp, ?_⟩
        have hstep : match_face t (l ++ [e]) =
            (some e.person,
              ⟨(cosine_distance t e.embedding : WithTop ℝ),
               (euclidean_distance t e.embedding : WithTop ℝ),
               1 - cosine_distance t e.embedding⟩) := by
          rw [heq, h1, matchStep_eq, if_pos]
          exact ⟨hd, WithTop.coe_lt_top _⟩
        rw [hel]
        refine ⟨by rw [hstep], by rw [hstep], hd, ?_, ?_⟩
        · intro j hj hdj
          rcases Nat.lt_or_ge j l.length with hjl | hjl
          · rw [hll j hjl] at hdj
            exact absurd hdj (h3 _ (List.get_mem l j hjl))
          · have : j = l.length := by
              have := hj; simp at this; omega
            subst this
            rw [hel] at hdj ⊢
        · intro j hj hji
          have hjl : j < l.length := hji
          rw [hll j hjl]
          have := h3 _ (List.get_mem l j hjl)
          have hθ : COSINE_THRESHOLD ≤ cosine_distance t (l.get ⟨j, hjl⟩).embedding :=
            not_lt.mp this
          exact lt_of_lt_of_le hd hθ
      · left
        have hstep : match_face t (l ++ [e]) = (none, ⟨⊤, ⊤, -1⟩) := by
          rw [heq, h1, matchStep_eq, if_neg]
          intro hc
          exact hd hc.1
        refine ⟨hstep, ?_⟩
        intro e' he'
        rcases List.mem_append.mp he' with h' | h'
        · exact h3 e' h'
        · rw [List.mem_singleton.mp h']
          exact hd
    · -- a best candidate i already exists in l
      set di := cosine_distance t (l.get ⟨i, hi⟩).embedding with hdi
      set d := cosine_distance t e.embedding with hd
      have hcond : (d < COSINE_THRESHOLD ∧
          ((d : WithTop ℝ) < (match_face t l).2.cosineDistance)) ↔
          (d < COSINE_THRESHOLD ∧ d < di) := by
        rw [h2, WithTop.coe_lt_coe]
      by_cases hc : d < COSINE_THRESHOLD ∧ d < di
      · right
        refine ⟨l.length, by simp, ?_⟩
        have hstep : match_face t (l ++ [e]) =
            (some e.person,
              ⟨(d : WithTop ℝ),
               (euclidean_distance t e.embedding : WithTop ℝ), 1 - d⟩) := by
          rw [heq, matchStep_eq, if_pos (hcond.mpr hc)]
        rw [hel]
        refine ⟨by rw [hstep], by rw [hstep], hc.1, ?_, ?_⟩
        · intro j hj hdj
          rcases Nat.lt_or_ge j l.length with hjl | hjl
          · rw [hll j hjl] at hdj ⊢
            exact le_of_lt (lt_of_lt_of_le hc.2 (h4 j hjl hdj))
          · have : j = l.length := by
              have := hj; simp at this; omega
            subst this
            rw [hel]
        · intro j hj hji
          have hjl : j < l.length := hji
          rw [hll j hjl]
          by_cases hdj : cosine_distance t (l.get ⟨j, hjl⟩).embedding <
              COSINE_THRESHOLD
          · exact lt_of_lt_of_le hc.2 (h4 j hjl hdj)
          · exact lt_of_lt_of_le hc.1 (not_lt.mp hdj)
      · right
        refine ⟨i, by simp; omega, ?_⟩
        have hstep : match_face t (l ++ [e]) = match_face t l := by
          rw [heq, matchStep_eq, if_neg]
          intro hcc
          exact hc (hcond.mp hcc)
        have hii : (l ++ [e]).get ⟨i, by simp; omega⟩ = l.get ⟨i, hi⟩ :=
          hll i hi
        rw [hii]
        refine ⟨by rw [hstep, h1], by rw [hstep, h2], h3, ?_, ?_⟩
        · intro j hj hdj
          rcases Nat.lt_or_ge j l.length with hjl | hjl
          · rw [hll j hjl] at hdj ⊢
            exact h4 j hjl hdj
          · have : j = l.length := by
              have := hj; simp at this; omega
            subst this
            rw [hel] at hdj ⊢
            rcases not_and_or.mp hc with h' | h'
            · exact absurd hdj h'
            · exact not_lt.mp h'
        · intro j hj hji
          have hjl : j < l.length := lt_trans hji hi
          rw [hll j hjl]
          exact h5 j hjl hji

/-! ### Claims C1–C3 -/

/-- C1 (amended): whenever no candidate's cosine distance is strictly below
`COSINE_THRESHOLD`, `match_face` returns no person and the reported
cosine-distance score is `+infinity` (`⊤`) — regardless of whether the
candidate list is empty; the minimum distance seen is *not* reported. -/
theorem match_face_no_accept_returns_inf (t : Emb) (cs : List CandEntry)
    (h : ∀ e ∈ cs, ¬ cosine_distance t e.embedding < COSINE_THRESHOLD) :
    match_face t cs = (none, ⟨⊤, ⊤, -1⟩) :=
  match_fold_of_all_rejected t cs (none, ⟨⊤, ⊤, -1⟩) h

theorem match_face_no_accept_returns_inf_witness :
    match_face [(1 : ℝ), 0] [] = (none, ⟨⊤, ⊤, -1⟩) :=
  match_face_no_accept_returns_inf [(1 : ℝ), 0] []
    (by intro e he; cases he)

/-- C1 counterexample: a single rejected candidate at cosine distance 2.
The claim says the reported score should be the minimum distance seen (2);
the code reports `+infinity` because `best_cos_dist` is only ever updated
for candidates that clear the threshold. -/
theorem match_face_rejected_score_is_not_min :
    cosine_distance [(1 : ℝ), 0] [(-1 : ℝ), 0] = 2 ∧
    ¬ cosine_distance [(1 : ℝ), 0] [(-1 : ℝ), 0] < COSINE_THRESHOLD ∧
    (match_face [(1 : ℝ), 0]
      [⟨⟨1, "Alice", 7, false⟩, [(-1 : ℝ), 0]⟩]).1 = none ∧
    (match_face [(1 : ℝ), 0]
      [⟨⟨1, "Alice", 7, false⟩, [(-1 : ℝ), 0]⟩]).2.cosineDistance = ⊤ ∧
    (⊤ : WithTop ℝ) ≠ ((2 : ℝ) : WithTop ℝ) := by
  have hd : cosine_distance [(1 : ℝ), 0] [(-1 : ℝ), 0] = 2 := by
    rw [cosine_distance_unit_pair 1 0 (-1) 0 (by norm_num) (by norm_num)]
    norm_num
  have hnot : ¬ cosine_distance [(1 : ℝ), 0] [(-1 : ℝ), 0] < COSINE_THRESHOLD := by
    rw [hd, COSINE_THRESHOLD]; norm_num
  have heval : match_face [(1 : ℝ), 0]
      [⟨⟨1, "Alice", 7, false⟩, [(-1 : ℝ), 0]⟩] = (none, ⟨⊤, ⊤, -1⟩) := by
    apply match_fold_of_all_rejected
    intro e he
    rw [List.mem_singleton.mp he]
    exact hnot
  refine ⟨hd, hnot, by rw [heval], by rw [heval], ?_⟩
  intro hcontra
  exact (WithTop.coe_ne_top (a := (2 : ℝ))) hcontra.symm

/-- C2: whenever `match_face` returns a person, that person comes from a
candidate whose cosine distance to the query is strictly below
`COSINE_THRESHOLD` (0.40). -/
theorem match_face_person_below_threshold (t : Emb) (cs : List CandEntry)
    (p : Person) (h : (match_face t cs).1 = some p) :
    ∃ e ∈ cs, e.person = p ∧
      cosine_distance t e.embedding < COSINE_THRESHOLD := by
  rcases match_fold_person t cs (none, ⟨⊤, ⊤, -1⟩) p h with h' | h'
  · exact absurd h' (by simp)
  · exact h'

theorem match_face_person_below_threshold_witness :
    ∃ e ∈ [(⟨⟨1, "Alice", 7, false⟩, [(1 : ℝ), 0]⟩ : CandEntry)],
      e.person = (⟨1, "Alice", 7, false⟩ : Person) ∧
      cosine_distance [(1 : ℝ), 0] e.embedding < COSINE_THRESHOLD := by
  have h0 : cosine_distance [(1 : ℝ), 0] [(1 : ℝ), 0] = 0 := by
    rw [cosine_distance_unit_pair 1 0 1 0 (by norm_num) (by norm_num)]
    norm_num
  have h1 : (match_face [(1 : ℝ), 0]
      [⟨⟨1, "Alice", 7, false⟩, [(1 : ℝ), 0]⟩]).1 =
      some (⟨1, "Alice", 7, false⟩ : Person) := by
    show (matchStep [(1 : ℝ), 0] (none, ⟨⊤, ⊤, -1⟩)
      ⟨⟨1, "Alice", 7, false⟩, [(1 : ℝ), 0]⟩).1 = some _
    rw [matchStep_eq, if_pos]
    exact ⟨by rw [h0, COSINE_THRESHOLD]; norm_num, WithTop.coe_lt_top _⟩
  exact match_face_person_below_threshold [(1 : ℝ), 0]
    [⟨⟨1, "Alice", 7, false⟩, [(1 : ℝ), 0]⟩] ⟨1, "Alice", 7, false⟩ h1

/-- C3: if at least one candidate clears the 0.40 threshold, `match_face`
returns the first candidate (in scan order) attaining the minimum cosine
distance, and reports that minimum as the score: the winner's distance is a
lower bound for every candidate's distance, and every earlier candidate has
a strictly larger distance (ties are won by the first occurrence). -/
theorem match_face_min_distance_first_wins (t : Emb) (cs : List CandEntry)
    (h : ∃ e ∈ cs, cosine_distance t e.embedding < COSINE_THRESHOLD) :
    ∃ i, ∃ hi : i < cs.length,
      (match_face t cs).1 = some (cs.get ⟨i, hi⟩).person ∧
      (match_face t cs).2.cosineDistance =
        (cosine_distance t (cs.get ⟨i, hi⟩).embedding : WithTop ℝ) ∧
      (∀ j, ∀ hj : j < cs.length,
        cosine_distance t (cs.get ⟨i, hi⟩).embedding ≤
          cosine_distance t (cs.get ⟨j, hj⟩).embedding) ∧
      (∀ j, ∀ hj : j < cs.length, j < i →
        cosine_distance t (cs.get ⟨i, hi⟩).embedding <
          cosine_distance t (cs.get ⟨j, hj⟩).embedding) := by
  rcases match_face_spec t cs with ⟨h1, h2⟩ | ⟨i, hi, h1, h2, h3, h4, h5⟩
  · rcases h with ⟨e, he, hd⟩
    exact absurd hd (h2 e he)
  · refine ⟨i, hi, h1, h2, ?_, h5⟩
    intro j hj
    by_cases hdj : cosine_distance t (cs.get ⟨j, hj⟩).embedding <
        COSINE_THRESHOLD
    · exact h4 j hj hdj
    · exact le_of_lt (lt_of_lt_of_le h3 (not_lt.mp hdj))

theorem match_face_min_distance_first_wins_witness :
    ∃ i, ∃ hi : i <
      ([⟨⟨1, "Alice", 7, false⟩, [(4 : ℝ)/5, 3/5]⟩,
        ⟨⟨2, "Bob", 7, false⟩, [(24 : ℝ)/25, 7/25]⟩] :
        List CandEntry).length,
      (match_face [(1 : ℝ), 0]
        [⟨⟨1, "Alice", 7, false⟩, [(4 : ℝ)/5, 3/5]⟩,
         ⟨⟨2, "Bob", 7, false⟩, [(24 : ℝ)/25, 7/25]⟩]).1 =
        some (([⟨⟨1, "Alice", 7, false⟩, [(4 : ℝ)/5, 3/5]⟩,
          ⟨⟨2, "Bob", 7, false⟩, [(24 : ℝ)/25, 7/25]⟩] :
          List CandEntry).get ⟨i, hi⟩).person ∧
      (match_face [(1 : ℝ), 0]
        [⟨⟨1, "Alice", 7, false⟩, [(4 : ℝ)/5, 3/5]⟩,
         ⟨⟨2, "Bob", 7, false⟩, [(24 : ℝ)/25, 7/25]⟩]).2.cosineDistance =
        (cosine_distance [(1 : ℝ), 0]
          (([⟨⟨1, "Alice", 7, false⟩, [(4 : ℝ)/5, 3/5]⟩,
            ⟨⟨2, "Bob", 7, false⟩, [(24 : ℝ)/25, 7/25]⟩] :
            List CandEntry).get ⟨i, hi⟩).embedding : WithTop ℝ) ∧
      (∀ j, ∀ hj : j <
        ([⟨⟨1, "Alice", 7, false⟩, [(4 : ℝ)/5, 3/5]⟩,
          ⟨⟨2, "Bob", 7, false⟩, [(24 : ℝ)/25, 7/25]⟩] :
          List CandEntry).length,
        cosine_distance [(1 : ℝ), 0]
          (([⟨⟨1, "Alice", 7, false⟩, [(4 : ℝ)/5, 3/5]⟩,
            ⟨⟨2, "Bob", 7, false⟩, [(24 : ℝ)/25, 7/25]⟩] :
            List CandEntry).get ⟨i, hi⟩).embedding ≤
        cosine_distance [(1 : ℝ), 0]
          (([⟨⟨1, "Alice", 7, false⟩, [(4 : ℝ)/5, 3/5]⟩,
            ⟨⟨2, "Bob", 7, false⟩, [(24 : ℝ)/25, 7/25]⟩] :
            List CandEntry).get ⟨j, hj⟩).embedding) ∧
      (∀ j, ∀ hj : j <
        ([⟨⟨1, "Alice", 7, false⟩, [(4 : ℝ)/5, 3/5]⟩,
          ⟨⟨2, "Bob", 7, false⟩, [(24 : ℝ)/25, 7/25]⟩] :
          List CandEntry).length, j < i →
        cosine_distance [(1 : ℝ), 0]
          (([⟨⟨1, "Alice", 7, false⟩, [(4 : ℝ)/5, 3/5]⟩,
            ⟨⟨2, "Bob", 7, false⟩, [(24 : ℝ)/25, 7/25]⟩] :
            List CandEntry).get ⟨i, hi⟩).embedding <
        cosine_distance [(1 : ℝ), 0]
          (([⟨⟨1, "Alice", 7, false⟩, [(4 : ℝ)/5, 3/5]⟩,
            ⟨⟨2, "Bob", 7, false⟩, [(24 : ℝ)/25, 7/25]⟩] :
            List CandEntry).get ⟨j, hj⟩).embedding) := by
  apply match_face_min_distance_first_wins
  refine ⟨⟨⟨1, "Alice", 7, false⟩, [(4 : ℝ)/5, 3/5]⟩, by simp, ?_⟩
  show cosine_distance [(1 : ℝ), 0] [(4 : ℝ)/5, 3/5] < COSINE_THRESHOLD
  rw [cosine_distance_unit_pair 1 0 (4/5) (3/5) (by norm_num) (by norm_num),
    COSINE_THRESHOLD]
  norm_num

/-! ### Claim C9 -/

/-- C9: when either vector has zero norm, `cosine_similarity` returns
exactly 0 (so `cosine_distance` returns exactly 1), with no error and no
NaN — the zero case is an explicit guard, not a division; otherwise the
similarity is `dot(a,b) / (‖a‖·‖b‖)`. -/
theorem cosine_similarity_zero_norm_spec (a b : Emb) :
    ((norm a = 0 ∨ norm b = 0) →
      cosine_similarity a b = 0 ∧ cosine_distance a b = 1) ∧
    (¬ (norm a = 0 ∨ norm b = 0) →
      cosine_similarity a b = dotList a b / (norm a * norm b)) := by
  constructor
  · intro h
    constructor
    · rw [cosine_similarity, if_pos h]
    · rw [cosine_distance, cosine_similarity, if_pos h]
      norm_num
  · intro h
    rw [cosine_similarity, if_neg h]

theorem cosine_similarity_zero_norm_spec_witness :
    cosine_similarity [(0 : ℝ)] [(1 : ℝ)] = 0 ∧
    cosine_distance [(0 : ℝ)] [(1 : ℝ)] = 1 :=
  (cosine_similarity_zero_norm_spec [(0 : ℝ)] [(1 : ℝ)]).1
    (Or.inl (by simp [norm, dotList]))

/-! ### The per-user embedding cache (`_get_user_embeddings`,
`invalidate_cache`, `__init__`) -/

/-- The two per-instance dictionaries `self._emb_cache` / `self._cache_ts`,
keyed by user id.  Timestamps are `time.time()` values (ℚ). -/
structure CacheState where
  emb_cache : Nat → Option (List CandEntry)
  cache_ts : Nat → Option ℚ

/-- `FaceRecognitionService.__init__`: both dictionaries start empty. -/
def initCacheState : CacheState := ⟨fun _ => none, fun _ => none⟩

/-- Writing a freshly loaded snapshot into both dictionaries
(`self._emb_cache[user_id] = data; self._cache_ts[user_id] = now`). -/
def cacheStore (s : CacheState) (user_id : Nat) (data : List CandEntry)
    (now : ℚ) : CacheState :=
  ⟨fun v => if v = user_id then some data else s.emb_cache v,
   fun v => if v = user_id then some now else s.cache_ts v⟩

/-- Result of one `_get_user_embeddings` call: the returned list, the
instance state afterwards, and how many EmbeddingStore (DB) reads were
performed (0 on a cache hit, 1 on a miss). -/
structure GetResult where
  data : List CandEntry
  state : CacheState
  storeReads : Nat

/-- `_get_user_embeddings`: cache hit iff the key is present and the entry
is younger than `CACHE_TTL` (`_cache_ts.get(user_id, 0)` defaults to 0);
otherwise the snapshot is loaded from the store (`Person.query` plus
`person.faces`, modelled as the external function `store`) and cached with
the current time. -/
def getUserEmbeddings (store : Nat → List CandEntry) (now : ℚ)
    (s : CacheState) (user_id : Nat) : GetResult :=
  match s.emb_cache user_id with
  | some data =>
    if now - ((s.cache_ts user_id).getD 0) < CACHE_TTL then
      ⟨data, s, 0⟩
    else
      ⟨store user_id, cacheStore s user_id (store user_id) now, 1⟩
  | none => ⟨store user_id, cacheStore s user_id (store user_id) now, 1⟩

/-- `invalidate_cache`: unconditionally pops both dictionary entries. -/
def invalidateCache (s : CacheState) (user_id : Nat) : CacheState :=
  ⟨fun v => if v = user_id then none else s.emb_cache v,
   fun v => if v = user_id then none else s.cache_ts v⟩

/-! ### Claims C5 and C6 -/

/-- C5: starting from a fresh instance, a second `_get_user_embeddings`
call strictly less than `CACHE_TTL` seconds after the first, with no
intervening invalidation, returns the identical snapshot, performs no
additional store read, and leaves the instance state unchanged — also when
the snapshot is the empty list (`store` is arbitrary here). -/
theorem cache_second_get_within_ttl (store : Nat → List CandEntry) (u : Nat)
    (t₁ t₂ : ℚ) (_h₁ : t₁ ≤ t₂) (h₂ : t₂ - t₁ < CACHE_TTL) :
    (getUserEmbeddings store t₂
        (getUserEmbeddings store t₁ initCacheState u).state u).data =
      (getUserEmbeddings store t₁ initCacheState u).data ∧
    (getUserEmbeddings store t₂
        (getUserEmbeddings store t₁ initCacheState u).state u).storeReads = 0 ∧
    (getUserEmbeddings store t₂
        (getUserEmbeddings store t₁ initCacheState u).state u).state =
      (getUserEmbeddings store t₁ initCacheState u).state := by
  have hg1 : getUserEmbeddings store t₁ initCacheState u =
      ⟨store u, cacheStore initCacheState u (store u) t₁, 1⟩ := rfl
  have hemb : (cacheStore initCacheState u (store u) t₁).emb_cache u =
      some (store u) := by
    simp [cacheStore]
  have hts : (cacheStore initCacheState u (store u) t₁).cache_ts u =
      some t₁ := by
    simp [cacheStore]
  have hg2 : getUserEmbeddings store t₂
      (cacheStore initCacheState u (store u) t₁) u =
      ⟨store u, cacheStore initCacheState u (store u) t₁, 0⟩ := by
    rw [getUserEmbeddings, hemb, hts]
    simp [h₂]
  rw [hg1]
  rw [hg2]
  exact ⟨rfl, rfl, rfl⟩

theorem cache_second_get_within_ttl_witness :
    (getUserEmbeddings (fun _ => []) 5
        (getUserEmbeddings (fun _ => []) 0 initCacheState 7).state 7).data =
      (getUserEmbeddings (fun _ => []) 0 initCacheState 7).data ∧
    (getUserEmbeddings (fun _ => []) 5
        (getUserEmbeddings (fun _ => []) 0 initCacheState 7).state 7).storeReads = 0 ∧
    (getUserEmbeddings (fun _ => []) 5
        (getUserEmbeddings (fun _ => []) 0 initCacheState 7).state 7).state =
      (getUserEmbeddings (fun _ => []) 0 initCacheState 7).state :=
  cache_second_get_within_ttl (fun _ => []) 7 0 5 (by norm_num)
    (by rw [CACHE_TTL]; norm_num)

/-- C6: `invalidate_cache` unconditionally removes the user's snapshot and
timestamp, so `get(u); invalidate(u); get(u)` on one instance performs
exactly one store read per `get` — two in total. -/
theorem invalidate_then_get_reloads (s : CacheState)
    (store : Nat → List CandEntry) (u : Nat) (t₁ t₂ : ℚ) :
    (invalidateCache s u).emb_cache u = none ∧
    (invalidateCache s u).cache_ts u = none ∧
    (getUserEmbeddings store t₁ initCacheState u).storeReads = 1 ∧
    (getUserEmbeddings store t₂
        (invalidateCache
          (getUserEmbeddings store t₁ initCacheState u).state u) u).storeReads = 1 ∧
    (getUserEmbeddings store t₁ initCacheState u).storeReads +
      (getUserEmbeddings store t₂
        (invalidateCache
          (getUserEmbeddings store t₁ initCacheState u).state u) u).storeReads = 2 := by
  have hinv : ∀ s' : CacheState, (invalidateCache s' u).emb_cache u = none := by
    intro s'; simp [invalidateCache]
  have hg2 : (getUserEmbeddings store t₂
      (invalidateCache
        (getUserEmbeddings store t₁ initCacheState u).state u) u).storeReads = 1 := by
    rw [getUserEmbeddings, hinv]
  have hg1 : (getUserEmbeddings store t₁ initCacheState u).storeReads = 1 := rfl
  exact ⟨hinv s, by simp [invalidateCache], hg1, hg2, by rw [hg1, hg2]⟩

/-! ### Claim C10: the cache is per-instance state -/

/-- A collection of live `FaceRecognitionService` instances, each with its
own `_emb_cache` / `_cache_ts` dictionaries (they are created per instance
in `__init__`, not shared class attributes). -/
abbrev World := Nat → CacheState

/-- Replacing the state of one instance. -/
def worldSet (w : World) (i : Nat) (st : CacheState) : World :=
  fun j => if j = i then st else w j

/-- `invalidate_cache(u)` called on instance `i`: only that instance's
dictionaries are touched. -/
def worldInvalidate (w : World) (i u : Nat) : World :=
  worldSet w i (invalidateCache (w i) u)

/-- The cache effect of the `update_person` / `delete_person` routes
(`face_routes.py`): `FaceRecognitionService().invalidate_cache(user_id)`
constructs a brand-new instance — with empty dictionaries, per `__init__` —
and invalidates that. -/
def routeInvalidate (w : World) (fresh u : Nat) : World :=
  worldSet w fresh (invalidateCache initCacheState u)

/-- C10: invalidating on one instance leaves every other instance's cache
unchanged; a fresh instance's cache is empty, so invalidating it removes
nothing (it stays the empty initial state pointwise), and the route-level
invalidation therefore removes no entry from any pre-existing instance. -/
theorem cache_per_instance_isolation (w : World) (i j u fresh : Nat)
    (hij : j ≠ i) (hfresh : j ≠ fresh) :
    worldInvalidate w i u j = w j ∧
    (∀ v, (invalidateCache initCacheState u).emb_cache v = none ∧
      (invalidateCache initCacheState u).cache_ts v = none) ∧
    routeInvalidate w fresh u j = w j := by
  refine ⟨?_, ?_, ?_⟩
  · simp [worldInvalidate, worldSet, hij]
  · intro v
    by_cases hv : v = u <;> simp [invalidateCache, initCacheState, hv]
  · simp [routeInvalidate, worldSet, hfresh]

theorem cache_per_instance_isolation_witness :
    worldInvalidate (fun _ => initCacheState) 0 3 1 =
      (fun _ => initCacheState : World) 1 ∧
    (∀ v, (invalidateCache initCacheState 3).emb_cache v = none ∧
      (invalidateCache initCacheState 3).cache_ts v = none) ∧
    routeInvalidate (fun _ => initCacheState) 2 3 1 =
      (fun _ => initCacheState : World) 1 :=
  cache_per_instance_isolation (fun _ => initCacheState) 0 1 3 2
    (by decide) (by decide)

/-! ### The SQLAlchemy session, Person rows and Face rows -/

/-- MTCNN landmark dictionary: named 2D points. -/
abbrev Landmarks := List (String × ℝ × ℝ)

/-- A `Face` row (`models/face.py`) as built by `detect_and_store_faces`. -/
structure Face where
  photo_id : Nat
  person_id : Nat
  bounding_box : List ℤ
  embedding : Emb
  landmarks : Landmarks
  confidence : ℝ
  model_version : String

/-- The database session: rows visible to queries in this session
(committed plus flushed), the durably committed rows, and the Face rows
added but not yet committed.  `db.session.flush()` makes a row visible
without committing it; `db.session.commit()` makes everything durable;
`db.session.rollback()` reverts to the committed rows. -/
structure SessionState where
  persons : List Person
  committedPersons : List Person
  faces : List Face
  pendingFaces : List Face
  nextPersonId : Nat

/-- `Person.query.filter_by(user_id=user_id, is_auto_created=True).count()`. -/
def countAutoCreated (s : SessionState) (user_id : Nat) : Nat :=
  (s.persons.filter fun p => p.user_id == user_id && p.is_auto_created).length

/-- `auto_create_person`: when `label is None`, recount the user's
auto-created persons and name the new row `"Unknown Person {count+1}"`;
add + flush the row, invalidate that user's cache entry, return the row. -/
def autoCreatePerson (s : SessionState) (cache : CacheState) (user_id : Nat)
    (label : Option String) : Person × SessionState × CacheState :=
  let lbl := match label with
    | some l => l
    | none => "Unknown Person " ++ toString (countAutoCreated s user_id + 1)
  let person : Person := ⟨s.nextPersonId, lbl, user_id, true⟩
  (person,
   { s with persons := s.persons ++ [person],
            nextPersonId := s.nextPersonId + 1 },
   invalidateCache cache user_id)

/-! ### Claim C4 -/

/-- C4: `auto_create_person` without a label creates exactly one new person,
auto-created, named `"Unknown Person (k+1)"` for `k` = the current count of
the user's auto-created persons (recomputed per call), invalidates that
user's cache entry and returns the new person; a second call — which sees
the first row via flush — yields `"Unknown Person (k+2)"` (so `k = 0` gives
"Unknown Person 1" then "Unknown Person 2"). -/
theorem auto_create_person_numbering (s : SessionState) (cache : CacheState)
    (u : Nat) :
    (autoCreatePerson s cache u none).1.name =
      "Unknown Person " ++ toString (countAutoCreated s u + 1) ∧
    (autoCreatePerson s cache u none).1.is_auto_created = true ∧
    (autoCreatePerson s cache u none).1.user_id = u ∧
    (autoCreatePerson s cache u none).2.1.persons =
      s.persons ++ [(autoCreatePerson s cache u none).1] ∧
    (autoCreatePerson s cache u none).2.2.emb_cache u = none ∧
    (autoCreatePerson s cache u none).2.2.cache_ts u = none ∧
    countAutoCreated (autoCreatePerson s cache u none).2.1 u =
      countAutoCreated s u + 1 ∧
    (autoCreatePerson (autoCreatePerson s cache u none).2.1
        (autoCreatePerson s cache u none).2.2 u none).1.name =
      "Unknown Person " ++ toString (countAutoCreated s u + 2) := by
  have hcount : countAutoCreated (autoCreatePerson s cache u none).2.1 u =
      countAutoCreated s u + 1 := by
    simp [autoCreatePerson, countAutoCreated, List.filter_append]
  refine ⟨rfl, rfl, rfl, rfl,
    by simp [autoCreatePerson, invalidateCache],
    by simp [autoCreatePerson, invalidateCache], hcount, ?_⟩
  rw [show (autoCreatePerson (autoCreatePerson s cache u none).2.1
      (autoCreatePerson s cache u none).2.2 u none).1.name =
      "Unknown Person " ++
        toString (countAutoCreated (autoCreatePerson s cache u none).2.1 u + 1)
    from rfl, hcount]

/-! ### The per-image pipeline (`FaceService.detect_and_store_faces`) -/

/-- The `facial_area` dict (`x`, `y`, `w`, `h`, missing keys default 0). -/
structure FacialArea where
  x : ℤ
  y : ℤ
  w : ℤ
  h : ℤ

/-- One entry of `detect_and_extract_faces`' result: the embedding may be
missing (`None`) or empty — both are falsy in `if not embedding`. -/
structure FaceInfo where
  embedding : Option Emb
  facial_area : FacialArea
  confidence : ℝ

/-- `db.session.commit()`: pending Face rows become durable and every
flushed Person row becomes committed. -/
def commitSession (s : SessionState) : SessionState :=
  { s with faces := s.faces ++ s.pendingFaces,
           pendingFaces := [],
           committedPersons := s.persons }

/-- `db.session.rollback()`: pending Face rows are dropped and flushed
Person rows revert to the committed ones. -/
def rollbackSession (s : SessionState) : SessionState :=
  { s with persons := s.committedPersons, pendingFaces := [] }

/-- The body of the per-face loop in `detect_and_store_faces`: skip faces
with a missing or empty embedding; otherwise match against the cached
embeddings, auto-create a person on no-match, and add a Face row. -/
noncomputable def processFaceStep (photo_id user_id : Nat)
    (landmark_map : Nat → Landmarks) (store : Nat → List CandEntry) (now : ℚ)
    (acc : SessionState × CacheState × List Face) (item : Nat × FaceInfo) :
    SessionState × CacheState × List Face :=
  let bbox := [item.2.facial_area.x, item.2.facial_area.y,
               item.2.facial_area.w, item.2.facial_area.h]
  match item.2.embedding with
  | none => acc
  | some [] => acc
  | some emb =>
    let g := getUserEmbeddings store now acc.2.1 user_id
    let m := match_face emb g.data
    match m.1 with
    | some p =>
      let face : Face := ⟨photo_id, p.id, bbox, emb, landmark_map item.1,
        item.2.confidence, MODEL_VERSION⟩
      ({ acc.1 with pendingFaces := acc.1.pendingFaces ++ [face] },
       g.state, acc.2.2 ++ [face])
    | none =>
      let r := autoCreatePerson acc.1 g.state user_id none
      let face : Face := ⟨photo_id, r.1.id, bbox, emb, landmark_map item.1,
        item.2.confidence, MODEL_VERSION⟩
      ({ r.2.1 with pendingFaces := r.2.1.pendingFaces ++ [face] },
       r.2.2, acc.2.2 ++ [face])

/-- `FaceService.detect_and_store_faces`: early-return on zero detected
faces; otherwise run the per-face loop, then commit all pending Face rows
as one unit and invalidate the cache — or, if the commit raises
(`commitFails`), roll the session back and re-raise. -/
noncomputable def detectAndStoreFaces (photo_id user_id : Nat)
    (faces_data : List FaceInfo) (landmark_map : Nat → Landmarks)
    (store : Nat → List CandEntry) (now : ℚ) (commitFails : Bool)
    (s : SessionState) (cache : CacheState) :
    Except String (List Face) × SessionState × CacheState :=
  if faces_data.isEmpty then (.ok [], s, cache)
  else
    let r := faces_data.enum.foldl
      (processFaceStep photo_id user_id landmark_map store now)
      (s, cache, ([] : List Face))
    if commitFails then
      (.error "DB error storing faces", rollbackSession r.1, r.2.1)
    else
      (.ok r.2.2, commitSession r.1, invalidateCache r.2.1 user_id)

/-- The per-face loop never touches the committed Face rows. -/
theorem processFaceStep_preserves_faces (photo_id user_id : Nat)
    (landmark_map : Nat → Landmarks) (store : Nat → List CandEntry) (now : ℚ)
    (items : List (Nat × FaceInfo)) (acc : SessionState × CacheState × List Face) :
    (items.foldl (processFaceStep photo_id user_id landmark_map store now)
      acc).1.faces = acc.1.faces := by
  induction items generalizing acc with
  | nil => rfl
  | cons it items ih =>
    rw [List.foldl_cons, ih]
    rcases it with ⟨idx, fi⟩
    rcases he : fi.embedding with _ | emb
    · simp [processFaceStep, he]
    · rcases emb with _ | ⟨x, emb⟩
      · simp [processFaceStep, he]
      · rcases hm : (match_face (x :: emb)
          (getUserEmbeddings store now acc.2.1 user_id).data).1 with _ | p
        · simp [processFaceStep, he, hm, autoCreatePerson]
        · simp [processFaceStep, he, hm]

/-! ### Claim C7 -/

/-- C7: when the commit raises, `detect_and_store_faces` rolls the session
back — the durable Face rows are exactly what they were before the call, so
zero Face rows for the image are durably stored, nothing remains pending —
and the error is re-raised to the caller. -/
theorem commit_failure_rolls_back_whole_image (photo_id user_id : Nat)
    (faces_data : List FaceInfo) (landmark_map : Nat → Landmarks)
    (store : Nat → List CandEntry) (now : ℚ) (s : SessionState)
    (cache : CacheState) (hne : faces_data ≠ [])
    (hclean : ∀ f ∈ s.faces, f.photo_id ≠ photo_id) :
    (∃ msg, (detectAndStoreFaces photo_id user_id faces_data landmark_map
      store now true s cache).1 = .error msg) ∧
    (detectAndStoreFaces photo_id user_id faces_data landmark_map
      store now true s cache).2.1.faces = s.faces ∧
    (∀ f ∈ (detectAndStoreFaces photo_id user_id faces_data landmark_map
      store now true s cache).2.1.faces, f.photo_id ≠ photo_id) ∧
    (detectAndStoreFaces photo_id user_id faces_data landmark_map
      store now true s cache).2.1.pendingFaces = [] := by
  have hemp : faces_data.isEmpty = false := by
    cases faces_data with
    | nil => exact absurd rfl hne
    | cons a l => rfl
  have heq : detectAndStoreFaces photo_id user_id faces_data landmark_map
      store now true s cache =
      (.error "DB error storing faces",
       rollbackSession (faces_data.enum.foldl
         (processFaceStep photo_id user_id landmark_map store now)
         (s, cache, ([] : List Face))).1,
       (faces_data.enum.foldl
         (processFaceStep photo_id user_id landmark_map store now)
         (s, cache, ([] : List Face))).2.1) := by
    rw [detectAndStoreFaces, hemp]
    simp
  have hfaces : (rollbackSession (faces_data.enum.foldl
      (processFaceStep photo_id user_id landmark_map store now)
      (s, cache, ([] : List Face))).1).faces = s.faces := by
    rw [rollbackSession]
    exact processFaceStep_preserves_faces photo_id user_id landmark_map
      store now faces_data.enum (s, cache, [])
  refine ⟨⟨"DB error storing faces", by rw [heq]⟩, ?_, ?_, ?_⟩
  · rw [heq]
    exact hfaces
  · rw [heq]
    intro f hf
    exact hclean f (hfaces ▸ hf)
  · rw [heq]
    rfl

theorem commit_failure_rolls_back_whole_image_witness :
    (∃ msg, (detectAndStoreFaces 1 1
      [⟨none, ⟨0, 0, 0, 0⟩, 0⟩] (fun _ => []) (fun _ => []) 0 true
      ⟨[], [], [], [], 0⟩ initCacheState).1 = .error msg) ∧
    (detectAndStoreFaces 1 1
      [⟨none, ⟨0, 0, 0, 0⟩, 0⟩] (fun _ => []) (fun _ => []) 0 true
      ⟨[], [], [], [], 0⟩ initCacheState).2.1.faces =
      (⟨[], [], [], [], 0⟩ : SessionState).faces ∧
    (∀ f ∈ (detectAndStoreFaces 1 1
      [⟨none, ⟨0, 0, 0, 0⟩, 0⟩] (fun _ => []) (fun _ => []) 0 true
      ⟨[], [], [], [], 0⟩ initCacheState).2.1.faces, f.photo_id ≠ 1) ∧
    (detectAndStoreFaces 1 1
      [⟨none, ⟨0, 0, 0, 0⟩, 0⟩] (fun _ => []) (fun _ => []) 0 true
      ⟨[], [], [], [], 0⟩ initCacheState).2.1.pendingFaces = [] :=
  commit_failure_rolls_back_whole_image 1 1
    [⟨none, ⟨0, 0, 0, 0⟩, 0⟩] (fun _ => []) (fun _ => []) 0
    ⟨[], [], [], [], 0⟩ initCacheState
    (List.cons_ne_nil _ _) (by intro f hf; cases hf)

/-! ### The background task (`services/tasks.py`, `process_photo_faces`) -/

/-- `max_retries=3` on the `@celery.task` decorator. -/
def MAX_RETRIES : Nat := 3

/-- Observable events of one scheduled background run. -/
inductive TaskEvent where
  | rollback (attempt : Nat)
  | retryScheduled (attempt : Nat) (countdown : Nat)
  | permanentFailure
  | succeeded (attempt : Nat)
deriving Repr, DecidableEq

/-- Modelled from the spec: the Celery retry driver itself (the framework
behind `@celery.task(bind=True, max_retries=3)` and
`self.retry(exc=exc, countdown=...)`) is not part of the repository.  Per
the spec's BackgroundTaskRunner contract it re-executes a failed run, after
the scheduled countdown, at most `max_retries` times before marking the run
permanently failed.  The body of the except-clause — `db.session.rollback()`
followed by `raise self.retry(countdown=2 ** self.request.retries)` — is
from `tasks.py` itself; `fails k` says whether attempt `k` (with
`self.request.retries = k`) raises. -/
def runFrom (fails : Nat → Bool) : Nat → Nat → List TaskEvent
  | _, 0 => []
  | k, b + 1 =>
    if fails k then
      TaskEvent.rollback k ::
        (if k < MAX_RETRIES then
          TaskEvent.retryScheduled k (2 ^ k) :: runFrom fails (k + 1) b
        else [TaskEvent.permanentFailure])
    else [TaskEvent.succeeded k]

/-- The full event trace of one scheduled `process_photo_faces` run. -/
def processPhotoFacesTrace (fails : Nat → Bool) : List TaskEvent :=
  runFrom fails 0 (MAX_RETRIES + 1)

def isRetryEvent : TaskEvent → Bool
  | TaskEvent.retryScheduled _ _ => true
  | _ => false

theorem runFrom_retry_count (fails : Nat → Bool) (b k : Nat) :
    ((runFrom fails k b).filter isRetryEvent).length ≤ MAX_RETRIES - k := by
  induction b generalizing k with
  | zero => simp [runFrom]
  | succ b ih =>
    rw [runFrom]
    by_cases hf : fails k
    · rw [if_pos hf]
      by_cases hk : k < MAX_RETRIES
      · rw [if_pos hk]
        have hfil : (TaskEvent.rollback k ::
            TaskEvent.retryScheduled k (2 ^ k) :: runFrom fails (k + 1) b).filter
              isRetryEvent =
            TaskEvent.retryScheduled k (2 ^ k) ::
              (runFrom fails (k + 1) b).filter isRetryEvent := by
          simp [isRetryEvent]
        rw [hfil, List.length_cons]
        have := ih (k + 1)
        omega
      · rw [if_neg hk]
        simp [isRetryEvent]
    · rw [if_neg hf]
      simp [isRetryEvent]

theorem runFrom_retry_mem (fails : Nat → Bool) (b k j d : Nat)
    (h : TaskEvent.retryScheduled j d ∈ runFrom fails k b) :
    d = 2 ^ j ∧ j < MAX_RETRIES ∧ fails j = true ∧
      [TaskEvent.rollback j, TaskEvent.retryScheduled j d].IsInfix
        (runFrom fails k b) := by
  induction b generalizing k with
  | zero => simp [runFrom] at h
  | succ b ih =>
    rw [runFrom] at h ⊢
    by_cases hf : fails k
    · rw [if_pos hf] at h ⊢
      by_cases hk : k < MAX_RETRIES
      · rw [if_pos hk] at h ⊢
        rcases List.mem_cons.mp h with h | h
        · exact TaskEvent.noConfusion h
        · rcases List.mem_cons.mp h with h | h
          · obtain ⟨hj, hd⟩ := TaskEvent.retryScheduled.inj h
            subst hj
            subst hd
            exact ⟨rfl, hk, hf, [], runFrom fails (j + 1) b, rfl⟩
          · rcases ih (k + 1) h with ⟨hd, hjk, hfj, l₁, l₂, hl⟩
            exact ⟨hd, hjk, hfj,
              TaskEvent.rollback k :: TaskEvent.retryScheduled k (2 ^ k) :: l₁,
              l₂, by rw [← hl]; simp⟩
      · rw [if_neg hk] at h
        simp at h
    · rw [if_neg hf] at h
      simp at h

/-! ### Claim C8 -/

/-- C8: a run is retried at most `MAX_RETRIES = 3` times; every scheduled
retry after failing attempt `k` carries countdown `2^k` time units and is
immediately preceded by the session rollback for that attempt; and if every
allowed attempt fails, the run ends marked permanently failed. -/
theorem process_photo_faces_retry_policy (fails : Nat → Bool) :
    ((processPhotoFacesTrace fails).filter isRetryEvent).length ≤ MAX_RETRIES ∧
    (∀ j d, TaskEvent.retryScheduled j d ∈ processPhotoFacesTrace fails →
      d = 2 ^ j ∧
      [TaskEvent.rollback j, TaskEvent.retryScheduled j d].IsInfix
        (processPhotoFacesTrace fails)) ∧
    ((∀ k, k ≤ MAX_RETRIES → fails k = true) →
      TaskEvent.permanentFailure ∈ processPhotoFacesTrace fails) := by
  refine ⟨?_, ?_, ?_⟩
  · have := runFrom_retry_count fails (MAX_RETRIES + 1) 0
    simpa [processPhotoFacesTrace] using this
  · intro j d h
    rcases runFrom_retry_mem fails (MAX_RETRIES + 1) 0 j d h with
      ⟨hd, _, _, hinf⟩
    exact ⟨hd, hinf⟩
  · intro hall
    have h0 := hall 0 (by rw [MAX_RETRIES]; omega)
    have h1 := hall 1 (by rw [MAX_RETRIES]; omega)
    have h2 := hall 2 (by rw [MAX_RETRIES]; omega)
    have h3 := hall 3 (by rw [MAX_RETRIES])
    simp [processPhotoFacesTrace, runFrom, MAX_RETRIES, h0, h1, h2, h3]

theorem process_photo_faces_retry_policy_witness :
    ((processPhotoFacesTrace (fun _ => true)).filter isRetryEvent).length ≤
      MAX_RETRIES ∧
    ((2 : Nat) = 2 ^ 1 ∧
      [TaskEvent.rollback 1, TaskEvent.retryScheduled 1 2].IsInfix
        (processPhotoFacesTrace (fun _ => true))) ∧
    TaskEvent.permanentFailure ∈ processPhotoFacesTrace (fun _ => true) := by
  refine ⟨(process_photo_faces_retry_policy (fun _ => true)).1,
    (process_photo_faces_retry_policy (fun _ => true)).2.1 1 2 (by decide),
    (process_photo_faces_retry_policy (fun _ => true)).2.2 ?_⟩
  intro k _
  rfl

end Drishyamitra
